import Mathlib

/-!
Shallow embedding of the leroyjenkins IP banning daemon (the `lib.rs` +
`keyed_limiter.rs` + `nftnl.rs` revision) and proofs about the claims of its
specification.

Durations are modelled as natural numbers of nanoseconds.  Rust's
`std::time::Duration` is a pair `(secs : u64, nanos : u32 < 10^9)`, i.e. it
represents exactly the nanosecond counts `0 .. durationMax`.
-/

namespace Leroy

/-- Largest nanosecond count representable by `std::time::Duration`
(`Duration::MAX = (u64::MAX, 999_999_999)`). -/
def durationMax : Nat := 2 ^ 64 * 1000000000 - 1

/-- Largest value of `u64`. -/
def u64Max : Nat := 2 ^ 64 - 1

/-- `Duration::checked_mul(k)`: `none` exactly when the product is not
representable as a `Duration`. -/
def durationCheckedMul (d k : Nat) : Option Nat :=
  if d * k ≤ durationMax then some (d * k) else none

/-- `Args::time_to_ban` (src/lib.rs 98-102):
`self.ipset_base_time.checked_mul(ban_count).unwrap_or(Duration::MAX)`. -/
def timeToBan (ipsetBaseTime : Nat) (banCount : Nat) : Nat :=
  (durationCheckedMul ipsetBaseTime banCount).getD durationMax

/-- `Duration::as_millis`: total whole milliseconds of the duration
(`d` in nanoseconds, truncating division). -/
def durationAsMillis (d : Nat) : Nat := d / 1000000

/-- `NftnlSetElem::set_timeout` (src/nftnl.rs 105-113): the `u64` value stored
in the `NFTNL_SET_ELEM_TIMEOUT` attribute,
`duration.as_millis().try_into().unwrap_or(u64::MAX)`. -/
def setElemTimeoutValue (d : Nat) : Nat :=
  if durationAsMillis d ≤ u64Max then durationAsMillis d else u64Max

/-! ## Keyed rate limiter (src/keyed_limiter.rs)

The admission decision itself lives in the `governor` crate, which is an
external dependency (not part of this repository's sources); it is modelled
from the specification below.  The state store, the GC logic and `check_key`
are translated from `src/keyed_limiter.rs`. -/

/-- Modelled from the spec: `emission_interval = period / burst` (nanoseconds),
the parameters of the quota built in `Leroy::new`
(`Quota::with_period(bl_period).allow_burst(bl_threshold)`); the `governor`
crate holding the actual `Quota` semantics is not in this repository. -/
def emissionInterval (period burst : Nat) : Nat := period / burst

/-- Modelled from the spec: `delay_tolerance = period`. -/
def delayTolerance (period _burst : Nat) : Nat := period

/-- Modelled from the spec: one step of the generic cell rate algorithm, the
admission decision of `governor`'s rate limiter (an external dependency, not
in this repository's sources).  `tat` is the stored bucket value (`0` when the
key is absent: `UnsyncInMemoryState` stores a `u64` and treats `0` as "no
state", src/keyed_limiter.rs 27-28).  Returns the admission decision and the
new bucket value: "if the bucket value `tat ≤ t`, admit and set
`tat ← max(tat, t) + emission_interval`; else if
`tat − t ≤ delay_tolerance − emission_interval`, admit and advance similarly;
else deny (no mutation)". -/
def gcraCheck (ei tol : Nat) (tat t : Nat) : Bool × Nat :=
  if tat ≤ t then (true, max tat t + ei)
  else if tat - t ≤ tol - ei then (true, max tat t + ei)
  else (false, tat)

/-- The limiter's map together with the GC bookkeeping
(`KeyedLimiter`, src/keyed_limiter.rs 94-102).  `buckets` is the association
list of the hash map `UnsyncHashMapStateStore` (key, stored `u64` bucket
value); keys are unique by construction of the operations below. -/
structure KeyedLimiter (K : Type) where
  buckets : List (K × Nat)
  initialCapacity : Nat
  nextGcLen : Nat
deriving Repr, DecidableEq

/-- `KeyedLimiter::new` (src/keyed_limiter.rs 109-119): empty map,
`next_gc_len = initial_capacity`. -/
def KeyedLimiter.new (K : Type) (initialCapacity : Nat) : KeyedLimiter K :=
  { buckets := [], initialCapacity := initialCapacity, nextGcLen := initialCapacity }

/-- `UnsyncInMemoryState::is_older_than` (src/keyed_limiter.rs 33-36):
`self.value.get() <= nanos`. -/
def isOlderThan (value nanos : Nat) : Bool := value ≤ nanos

/-- `UnsyncHashMapStateStore::retain_recent` (src/keyed_limiter.rs 75-79):
keep exactly the entries that are not older than `dropBelow`. -/
def retainRecent (dropBelow : Nat) (bs : List (K × Nat)) : List (K × Nat) :=
  bs.filter fun kv => !isOlderThan kv.2 dropBelow

/-- `KeyedLimiter::maybe_gc` (src/keyed_limiter.rs 126-136): when
`len() >= next_gc_len`, drop the fully replenished buckets (value ≤ now) and
set `next_gc_len ← max(initial_capacity, 2 · new_len)`. -/
def KeyedLimiter.maybeGc (t : Nat) (l : KeyedLimiter K) : KeyedLimiter K :=
  if l.nextGcLen ≤ l.buckets.length then
    let retained := retainRecent t l.buckets
    { l with buckets := retained,
             nextGcLen := max l.initialCapacity (2 * retained.length) }
  else l

/-- Store the bucket value for a key: update in place when present
(`buckets.get(key)`), otherwise insert (`buckets.entry(key).or_default()`,
src/keyed_limiter.rs 61-66). -/
def setBucket [DecidableEq K] (bs : List (K × Nat)) (k : K) (v : Nat) :
    List (K × Nat) :=
  if bs.any fun kv => kv.1 = k then
    bs.map fun kv => if kv.1 = k then (k, v) else kv
  else bs ++ [(k, v)]

/-- The stored bucket value of a key; `0` both for an absent key and for the
default-initialised state (`UnsyncInMemoryState` is a `Cell<u64>` starting at
`0`, and `measure_and_replace_one` maps `0` to "no prior state"). -/
def bucketValue [DecidableEq K] (l : KeyedLimiter K) (k : K) : Nat :=
  (l.buckets.lookup k).getD 0

/-- `StateStore::measure_and_replace` specialised to the GCRA decision
(src/keyed_limiter.rs 57-67 driving `gcraCheck`): read the stored value,
decide, write back the new value on admission; on denial the stored value is
unchanged (a missing key is still materialised with its default value `0`,
as `...entry(key).or_default()` does). -/
def storeCheck [DecidableEq K] (ei tol t : Nat) (l : KeyedLimiter K) (k : K) :
    Bool × KeyedLimiter K :=
  let v := bucketValue l k
  match gcraCheck ei tol v t with
  | (true, v') => (true, { l with buckets := setBucket l.buckets k v' })
  | (false, _) => (false, { l with buckets := setBucket l.buckets k v })

/-- `KeyedLimiter::check_key` (src/keyed_limiter.rs 121-124):
`self.maybe_gc(); self.rate_limiter.check_key(key)`.  `true` means admitted
(`Ok(())`), `false` means denied (`Err(NotUntil)`). -/
def KeyedLimiter.checkKey [DecidableEq K] (period burst t : Nat)
    (l : KeyedLimiter K) (k : K) : Bool × KeyedLimiter K :=
  storeCheck (emissionInterval period burst) (delayTolerance period burst) t
    (l.maybeGc t) k

/-! ## Netlink message batch (src/nftnl.rs) -/

/-- Netlink message-type constants.  `NFT_MSG_NEWSETELEM` and
`NFT_MSG_DELSETELEM` come from `libc` (the `nf_tables_msg_types` enum); the
batch framing records are written by `nftnl_batch_begin` / `nftnl_batch_end`
with types `NFNL_MSG_BATCH_BEGIN` / `NFNL_MSG_BATCH_END`. -/
def NFT_MSG_NEWSETELEM : Nat := 12
def NFT_MSG_DELSETELEM : Nat := 14
def NFNL_MSG_BATCH_BEGIN : Nat := 16
def NFNL_MSG_BATCH_END : Nat := 17

/-- Netlink flag constants from `libc`. -/
def NLM_F_REQUEST : Nat := 1
def NLM_F_ACK : Nat := 4
def NLM_F_CREATE : Nat := 0x400

/-- `Seq::inc` (src/nftnl.rs 131-136): `Seq(self.0.wrapping_add(1))` on a
`u32`. -/
def seqInc (s : Nat) : Nat := (s + 1) % 2 ^ 32

/-- One netlink message of a batch, reduced to the header fields the claims
are about: message type, flags, sequence number.  Flags of the framing
records are set inside libnftnl, not by this repository's code; they are
recorded as `NLM_F_REQUEST` (what `nftnl_batch_begin`/`nftnl_batch_end`
use). -/
structure Msg where
  msgType : Nat
  flags : Nat
  seq : Nat
deriving Repr, DecidableEq

/-- `NlmsgBatch`: the accumulated messages and the `u32` sequence counter. -/
structure NlmsgBatch where
  msgs : List Msg
  seq : Nat
deriving Repr, DecidableEq

/-- `mnl_nlmsg_batch_reset` via `NlmsgBatch::reset`: empties the message
buffer, the sequence counter is untouched. -/
def NlmsgBatch.reset (b : NlmsgBatch) : NlmsgBatch := { b with msgs := [] }

/-- `NlmsgBatch::begin` (src/nftnl.rs 159-171): increment the sequence, then
write a `BATCH_BEGIN` record carrying it. -/
def NlmsgBatch.begin (b : NlmsgBatch) : NlmsgBatch :=
  let s := seqInc b.seq
  { msgs := b.msgs ++ [⟨NFNL_MSG_BATCH_BEGIN, NLM_F_REQUEST, s⟩], seq := s }

/-- `NlmsgBatch::set_elems` (src/nftnl.rs 173-192): increment the sequence,
then write a message header with the given type and flags carrying it. -/
def NlmsgBatch.setElems (b : NlmsgBatch) (msgType flags : Nat) : NlmsgBatch :=
  let s := seqInc b.seq
  { msgs := b.msgs ++ [⟨msgType, flags, s⟩], seq := s }

/-- `NlmsgBatch::end` (src/nftnl.rs 194-206): increment the sequence, then
write a `BATCH_END` record carrying it. -/
def NlmsgBatch.finish (b : NlmsgBatch) : NlmsgBatch :=
  let s := seqInc b.seq
  { msgs := b.msgs ++ [⟨NFNL_MSG_BATCH_END, NLM_F_REQUEST, s⟩], seq := s }

/-- The batch construction performed by `Leroy::ban` (src/lib.rs 216-240):
reset, begin, `NEW_SET_ELEM` (`CREATE|REQUEST`), `DEL_SET_ELEM`
(`CREATE|REQUEST`), `NEW_SET_ELEM` (`CREATE|REQUEST|ACK`), record
`batch.seq()` as the expected ACK sequence, end.  Returns the finished batch
and the recorded sequence. -/
def banBatch (b : NlmsgBatch) : NlmsgBatch × Nat :=
  let b := b.reset
  let b := b.begin
  let b := b.setElems NFT_MSG_NEWSETELEM (NLM_F_CREATE ||| NLM_F_REQUEST)
  let b := b.setElems NFT_MSG_DELSETELEM (NLM_F_CREATE ||| NLM_F_REQUEST)
  let b := b.setElems NFT_MSG_NEWSETELEM (NLM_F_CREATE ||| NLM_F_REQUEST ||| NLM_F_ACK)
  let seq := b.seq
  let b := b.finish
  (b, seq)

/-! ## Ban pipeline (src/lib.rs) -/

/-- `std::net::IpAddr`: 32-bit or 128-bit address value. -/
inductive IpAddr where
  | v4 (addr : Nat)
  | v6 (addr : Nat)
deriving Repr, DecidableEq

/-- The two reserved test addresses banned by `Leroy::new`
(src/lib.rs 157-159): `192.0.2.1` and `2001:db8::1`. -/
def testAddrV4 : IpAddr := .v4 (192 * 2 ^ 24 + 0 * 2 ^ 16 + 2 * 2 ^ 8 + 1)

def testAddrV6 : IpAddr := .v6 (0x20010db8 * 2 ^ 96 + 1)

/-- The cache-and-kernel-visible state mutated by `Leroy::ban`:
the suppression cache `ipset_cache` (IP → unit), the recidivism cache
`recidivism_counts` (IP → u32), and the list of (IP, timeout-duration)
submissions handed to the kernel-set client, in order. -/
structure BanState where
  suppression : List IpAddr
  recidivism : List (IpAddr × Nat)
  submissions : List (IpAddr × Nat)
deriving Repr, DecidableEq

/-- The empty state `Leroy::new` starts from: both caches empty, nothing
submitted. -/
def BanState.initial : BanState := ⟨[], [], []⟩

/-- `self.recidivism_counts.get(&ip).unwrap_or(&0)`. -/
def BanState.recCount (s : BanState) (ip : IpAddr) : Nat :=
  (s.recidivism.lookup ip).getD 0

/-- Outcome of the kernel exchange for one ban, the inputs `Leroy::ban`
reads from the socket (src/lib.rs 242-253): how many bytes `send` reported
(`none` for a send error), whether `recv` succeeded, and the kernel error
codes carried by the received ACK messages (`mnl::cb_run` fails on any
non-zero code). -/
structure KernelSocket where
  sent : Option Nat
  recvOk : Bool
  ackCodes : List Nat
deriving Repr, DecidableEq

/-- The error cases of `Leroy::ban`'s kernel I/O. -/
inductive BanError where
  | sendFailed
  | shortWrite
  | recvFailed
  | ackError
deriving Repr, DecidableEq

/-- The send/recv/validate sequence of `Leroy::ban` (src/lib.rs 242-253):
`send` must succeed and report exactly `batchLen` bytes
("did not send entire batch" otherwise), `recv` must succeed, and `cb_run`
must accept every response (it errors on a non-zero kernel error code). -/
def submitBatch (batchLen : Nat) (io : KernelSocket) : Except BanError Unit :=
  match io.sent with
  | none => .error .sendFailed
  | some tx =>
    if tx ≠ batchLen then .error .shortWrite
    else if !io.recvOk then .error .recvFailed
    else if io.ackCodes.any fun c => c ≠ 0 then .error .ackError
    else .ok ()

/-- `Leroy::ban` (src/lib.rs 195-258).  `socket = none` is dry-run mode
(`self.socket` is `None`): the batch is built but not transmitted.
If the suppression cache contains the IP, return `Ok` immediately with no
kernel call and no cache change.  Otherwise read the recidivism count,
compute the timeout via `time_to_ban`, exchange the batch with the kernel
(propagating any error, in which case no cache is written), then insert into
both caches.  `batchLen` abstracts `nlmsg_batch.as_bytes().len()`.  The
recidivism count is a `u32` (`let recidivism: u32 = *...get(&ip)
.unwrap_or(&0) + 1`, src/lib.rs 201), so the increment wraps at `2^32`
(release-build semantics); cached values are therefore always below
`2^32`. -/
def banKernel (base batchLen : Nat) (socket : Option KernelSocket) (s : BanState)
    (ip : IpAddr) : Except BanError BanState :=
  if ip ∈ s.suppression then .ok s
  else
    let recidivism := (s.recCount ip + 1) % 2 ^ 32
    let timeout := timeToBan base recidivism
    let submit : Except BanError Unit :=
      match socket with
      | none => .ok ()
      | some io => submitBatch batchLen io
    match submit with
    | .error e => .error e
    | .ok () =>
      .ok { suppression := ip :: s.suppression
            recidivism := (ip, recidivism) :: s.recidivism.filter fun kv => kv.1 ≠ ip
            submissions := s.submissions ++ [(ip, timeout)] }

/-- `Leroy::ban` in dry-run mode (always succeeds). -/
def ban (base : Nat) (s : BanState) (ip : IpAddr) : BanState :=
  match banKernel base 0 none s ip with
  | .ok s' => s'
  | .error _ => s

/-- TTL expiry of the suppression entry for one IP (`ipset_cache`'s
`time_to_live` elapsing): the entry disappears, nothing else changes. -/
def expireSuppression (s : BanState) (ip : IpAddr) : BanState :=
  { s with suppression := s.suppression.filter fun j => j ≠ ip }

/-- `k` successive bans of the same IP, each issued after the previous
suppression entry for it has expired (and with the recidivism entry still
live, never expiring): one "round" is suppression-expiry followed by
`ban`. -/
def banRounds (base : Nat) (ip : IpAddr) : Nat → BanState → BanState
  | 0, s => s
  | k + 1, s => ban base (expireSuppression (banRounds base ip k s) ip) ip

/-- The error cases of `Leroy::new` (it returns `Box<dyn Error>`): the quota
validation failure `"--bl-period must be non-zero"` (src/lib.rs 134-135) or a
failure of one of the two startup self-bans. -/
inductive NewError where
  | invalidQuota
  | banFailed (e : BanError)
deriving Repr, DecidableEq

/-- The limiter construction of `Leroy::new` (src/lib.rs 132-141):
`NonZeroU32::new(args.bl_threshold)` is `None` exactly for threshold `0`, in
which case no limiter is instantiated ("ban on sight"); otherwise
`Quota::with_period(args.bl_period)` is `None` for a zero period, and the
`ok_or_else(...)?` aborts construction with the error
`"--bl-period must be non-zero"`.  `blPeriod` is the period in
nanoseconds. -/
def ipRateLimiters (blThreshold blPeriod capacity : Nat) :
    Except NewError (Option (KeyedLimiter (List Nat))) :=
  if blThreshold = 0 then .ok none
  else if blPeriod = 0 then .error .invalidQuota
  else .ok (some (KeyedLimiter.new (List Nat) capacity))

/-- `Leroy::new` (src/lib.rs 125-162), reduced to the state the claims are
about: build the limiter (propagating the quota-validation error), then ban
the two reserved test addresses before any line is handled. -/
def leroyNew (blThreshold blPeriod capacity base batchLen : Nat)
    (socket : Option KernelSocket) :
    Except NewError (Option (KeyedLimiter (List Nat)) × BanState) :=
  match ipRateLimiters blThreshold blPeriod capacity with
  | .error e => .error e
  | .ok limiter =>
    match banKernel base batchLen socket BanState.initial testAddrV4 with
    | .error e => .error (.banFailed e)
    | .ok s =>
      match banKernel base batchLen socket s testAddrV6 with
      | .error e => .error (.banFailed e)
      | .ok s => .ok (limiter, s)

/-- Observable events of one `handle_line` call: whether the limiter was
consulted, which IP a ban was attempted for (`none` when no ban path or the
line did not parse), and whether an IP parse error was logged. -/
structure Trace where
  checkedLimiter : Bool
  banAttempt : Option IpAddr
  parseFailed : Bool
deriving Repr, DecidableEq

/-- Result of one `handle_line` call: either the pipeline continues with the
new limiter and ban state, or the `expect("ban")` panic aborts the process
with the kernel error. -/
inductive StepResult where
  | next (limiter : Option (KeyedLimiter (List Nat))) (s : BanState)
  | fatal (e : BanError)
deriving Repr, DecidableEq

/-- `Leroy::handle_line` (src/lib.rs 164-180), parameterised by the external
`IpAddr::parse_ascii` (`parse`; a standard-library function) and the current
virtual time `t`.  When the limiter is absent (`is_none_or`) or denies, the
line is parsed; a parsed IP is banned (`expect("ban")` aborts on error), a
parse failure is logged and processing continues.  The line-count reporting
(src/lib.rs 182-192) touches no claimed state and is omitted. -/
def handleLine (parse : List Nat → Option IpAddr)
    (period burst base batchLen t : Nat) (socket : Option KernelSocket)
    (limiter : Option (KeyedLimiter (List Nat))) (s : BanState)
    (line : List Nat) : StepResult × Trace :=
  let banPath (limiter' : Option (KeyedLimiter (List Nat))) (checked : Bool) :
      StepResult × Trace :=
    match parse line with
    | some ip =>
      (match banKernel base batchLen socket s ip with
       | .ok s' => (.next limiter' s', ⟨checked, some ip, false⟩)
       | .error e => (.fatal e, ⟨checked, some ip, false⟩))
    | none => (.next limiter' s, ⟨checked, none, true⟩)
  match limiter with
  | none => banPath none false
  | some l =>
    match l.checkKey period burst t line with
    | (true, l') => (.next (some l') s, ⟨true, none, false⟩)
    | (false, l') => banPath (some l') true

/-! ## Helper lemmas -/

theorem timeToBan_eq (b k : Nat) : timeToBan b k = min (b * k) durationMax := by
  unfold timeToBan durationCheckedMul
  by_cases h : b * k ≤ durationMax
  · simp [h, Nat.min_eq_left h]
  · simp [h, Nat.min_eq_right (Nat.le_of_not_le h)]

theorem banKernel_of_suppressed (base batchLen : Nat) (socket : Option KernelSocket)
    (s : BanState) (ip : IpAddr) (h : ip ∈ s.suppression) :
    banKernel base batchLen socket s ip = .ok s := by
  simp [banKernel, h]

theorem ban_of_suppressed (base : Nat) (s : BanState) (ip : IpAddr)
    (h : ip ∈ s.suppression) : ban base s ip = s := by
  simp [ban, banKernel, h]

theorem ban_of_not_suppressed (base : Nat) (s : BanState) (ip : IpAddr)
    (h : ip ∉ s.suppression) :
    ban base s ip =
      ⟨ip :: s.suppression,
       (ip, (s.recCount ip + 1) % 2 ^ 32) ::
         s.recidivism.filter fun kv => kv.1 ≠ ip,
       s.submissions ++
         [(ip, timeToBan base ((s.recCount ip + 1) % 2 ^ 32))]⟩ := by
  simp [ban, banKernel, h]

theorem recCount_expireSuppression (s : BanState) (ip j : IpAddr) :
    (expireSuppression s ip).recCount j = s.recCount j := rfl

theorem notMem_expireSuppression (s : BanState) (ip : IpAddr) :
    ip ∉ (expireSuppression s ip).suppression := by
  simp [expireSuppression]

theorem banRounds_spec (base : Nat) (ip : IpAddr) (k : Nat) :
    (banRounds base ip k BanState.initial).recCount ip = k % 2 ^ 32 ∧
    (banRounds base ip k BanState.initial).submissions =
      (List.range k).map fun i => (ip, timeToBan base ((i + 1) % 2 ^ 32)) := by
  induction k with
  | zero => exact ⟨rfl, rfl⟩
  | succ k ih =>
    have h1 := notMem_expireSuppression (banRounds base ip k BanState.initial) ip
    have h2 := ban_of_not_suppressed base
      (expireSuppression (banRounds base ip k BanState.initial) ip) ip h1
    have hrec : (expireSuppression (banRounds base ip k BanState.initial)
        ip).recCount ip = k % 2 ^ 32 :=
      (recCount_expireSuppression _ _ _).trans ih.1
    constructor
    · show (ban base (expireSuppression (banRounds base ip k BanState.initial) ip) ip).recCount
        ip = (k + 1) % 2 ^ 32
      rw [h2]
      have hrec' : (List.lookup ip (expireSuppression
          (banRounds base ip k BanState.initial) ip).recidivism).getD 0 =
          k % 2 ^ 32 := hrec
      simp [BanState.recCount, List.lookup, hrec', Nat.mod_add_mod]
    · show (ban base (expireSuppression (banRounds base ip k BanState.initial) ip)
        ip).submissions = (List.range (k + 1)).map fun i =>
          (ip, timeToBan base ((i + 1) % 2 ^ 32))
      rw [h2]
      have hsub : (expireSuppression (banRounds base ip k BanState.initial)
          ip).submissions =
          (List.range k).map fun i => (ip, timeToBan base ((i + 1) % 2 ^ 32)) :=
        ih.2
      simp [hsub, hrec, List.range_succ, Nat.mod_add_mod]

/-! ## The claims -/

/-- Claim C8: the timeout value placed in the netlink set-element message is
the ban duration in whole milliseconds — for a duration of `s` whole seconds,
`s · 1000` — saturating at `u64::MAX` when the millisecond count does not fit
in 64 bits. -/
theorem claim_C8_timeout_unit (d s : Nat) :
    setElemTimeoutValue d = min (durationAsMillis d) u64Max ∧
    setElemTimeoutValue (s * 1000000000) = min (s * 1000) u64Max := by
  constructor
  · unfold setElemTimeoutValue
    by_cases h : durationAsMillis d ≤ u64Max
    · simp [h, Nat.min_eq_left h]
    · simp [h, Nat.min_eq_right (Nat.le_of_not_le h)]
  · have hms : durationAsMillis (s * 1000000000) = s * 1000 := by
      unfold durationAsMillis
      have : s * 1000000000 = s * 1000 * 1000000 := by ring
      rw [this, Nat.mul_div_cancel _ (by norm_num)]
    unfold setElemTimeoutValue
    rw [hms]
    by_cases h : s * 1000 ≤ u64Max
    · simp [h, Nat.min_eq_left h]
    · simp [h, Nat.min_eq_right (Nat.le_of_not_le h)]

/-- Claim C2 as amended: the recidivism count is a `u32` and wraps at `2^32`,
so only for every `k` with `1 ≤ k < 2^32` does the k-th non-suppressed ban of
an IP within the recidivism window (suppression entry expired, recidivism
entry preserved, between bans) submit a kernel timeout of
`k · ipset_base_time` saturating at `Duration::MAX`; each ban reads the
recidivism count `r` (0 when absent), uses `(r + 1) mod 2^32` as the new
count, and submits timeout `ipset_base_time · ((r + 1) mod 2^32)`
saturated. -/
theorem claim_C2_recidivism_linearity (base k : Nat) (ip : IpAddr) (s : BanState)
    (hk : 1 ≤ k) (hk32 : k < 2 ^ 32) (hs : ip ∉ s.suppression) :
    (banRounds base ip k BanState.initial).submissions =
      (List.range k).map (fun i => (ip, min (base * (i + 1)) durationMax)) ∧
    ((banRounds base ip k BanState.initial).submissions).getLast? =
      some (ip, min (base * k) durationMax) ∧
    (ban base s ip).recCount ip = (s.recCount ip + 1) % 2 ^ 32 ∧
    (ban base s ip).submissions = s.submissions ++
      [(ip, min (base * ((s.recCount ip + 1) % 2 ^ 32)) durationMax)] := by
  have hrounds := banRounds_spec base ip
  have hmap : ((List.range k).map fun i => (ip, timeToBan base ((i + 1) % 2 ^ 32))) =
      (List.range k).map fun i => (ip, min (base * (i + 1)) durationMax) :=
    List.map_congr_left fun i hi => by
      have hik : i < k := List.mem_range.mp hi
      rw [Nat.mod_eq_of_lt (by omega), timeToBan_eq]
  refine ⟨((hrounds k).2).trans hmap, ?_, ?_, ?_⟩
  · obtain ⟨m, rfl⟩ : ∃ m, k = m + 1 := ⟨k - 1, by omega⟩
    rw [(hrounds (m + 1)).2, hmap, List.range_succ, List.map_append]
    simp
  · rw [ban_of_not_suppressed base s ip hs]
    simp [BanState.recCount, List.lookup]
  · rw [ban_of_not_suppressed base s ip hs, timeToBan_eq]

/-- Closed-form witness for `claim_C2_recidivism_linearity` at concrete
inputs. -/
theorem claim_C2_witness :
    (banRounds 7 testAddrV4 3 BanState.initial).submissions =
      (List.range 3).map (fun i => (testAddrV4, min (7 * (i + 1)) durationMax)) :=
  (claim_C2_recidivism_linearity 7 3 testAddrV4 BanState.initial (by decide)
    (by decide) (by decide)).1

/-- Counterexample to claim C2 as stated: the recidivism count is a `u32` and
wraps (src/lib.rs 201), so with base time 1 ns the 2^32-th non-suppressed ban
of an IP within the recidivism window submits timeout
`1 · ((2^32) mod 2^32) = 0`, not `min(2^32 · 1, Duration::MAX) = 2^32` as the
claim states for every `k ≥ 1`. -/
theorem claim_C2_counterexample :
    ((banRounds 1 testAddrV4 (2 ^ 32) BanState.initial).submissions).getLast? =
      some (testAddrV4, 0) ∧
    (0 : Nat) ≠ min (1 * 2 ^ 32) durationMax := by
  constructor
  · rw [(banRounds_spec 1 testAddrV4 (2 ^ 32)).2]
    have h32 : (2 : Nat) ^ 32 = (2 ^ 32 - 1) + 1 := by norm_num
    rw [h32, List.range_succ, List.map_append]
    simp [Nat.mod_self, timeToBan, durationCheckedMul]
  · have : (1 : Nat) * 2 ^ 32 ≤ durationMax := by norm_num [durationMax]
    rw [Nat.min_eq_left this]
    norm_num

/-- Claim C4: while a suppression entry for an IP is live, `ban` on that IP
is a no-op (no kernel submission, neither cache changed), so two successive
`ban(ip)` calls perform at most one kernel submission. -/
theorem claim_C4_suppression_idempotence (base batchLen : Nat)
    (socket : Option KernelSocket) (s : BanState) (ip : IpAddr) :
    (ip ∈ s.suppression → banKernel base batchLen socket s ip = .ok s) ∧
    (ban base (ban base s ip) ip).submissions.length ≤ s.submissions.length + 1 := by
  constructor
  · exact fun h => banKernel_of_suppressed base batchLen socket s ip h
  · by_cases h : ip ∈ s.suppression
    · rw [ban_of_suppressed base s ip h, ban_of_suppressed base s ip h]
      omega
    · rw [ban_of_not_suppressed base s ip h]
      rw [ban_of_suppressed base _ ip (List.mem_cons_self ip _)]
      simp

/-- Closed-form witness for `claim_C4_suppression_idempotence`: a ban of an
already-suppressed IP returns `Ok` with the state untouched. -/
theorem claim_C4_witness :
    banKernel 5 0 none ⟨[testAddrV4], [], []⟩ testAddrV4 =
      .ok ⟨[testAddrV4], [], []⟩ :=
  (claim_C4_suppression_idempotence 5 0 none ⟨[testAddrV4], [], []⟩ testAddrV4).1
    (by decide)

/-- Claim C3: every ban produces exactly one batch whose messages are, in
order, `BATCH_BEGIN`; `NEW_SET_ELEM` (`CREATE|REQUEST`); `DEL_SET_ELEM`
(`CREATE|REQUEST`); `NEW_SET_ELEM` (`CREATE|REQUEST|ACK`); `BATCH_END`.
Consecutive sequence numbers each increase by one (wrapping `u32`), hence are
strictly monotonic within the batch (whenever no wrap occurs), and the
expected ACK sequence is the sequence of the last message before
`BATCH_END`. -/
theorem claim_C3_batch_framing (b0 : NlmsgBatch) :
    (banBatch b0).1.msgs =
      [⟨NFNL_MSG_BATCH_BEGIN, NLM_F_REQUEST, (b0.seq + 1) % 2 ^ 32⟩,
       ⟨NFT_MSG_NEWSETELEM, NLM_F_CREATE ||| NLM_F_REQUEST, (b0.seq + 2) % 2 ^ 32⟩,
       ⟨NFT_MSG_DELSETELEM, NLM_F_CREATE ||| NLM_F_REQUEST, (b0.seq + 3) % 2 ^ 32⟩,
       ⟨NFT_MSG_NEWSETELEM, NLM_F_CREATE ||| NLM_F_REQUEST ||| NLM_F_ACK,
        (b0.seq + 4) % 2 ^ 32⟩,
       ⟨NFNL_MSG_BATCH_END, NLM_F_REQUEST, (b0.seq + 5) % 2 ^ 32⟩] ∧
    (banBatch b0).2 = (b0.seq + 4) % 2 ^ 32 ∧
    ((banBatch b0).1.msgs.map Msg.seq).Chain' (fun a b => b = seqInc a) ∧
    (b0.seq + 5 < 2 ^ 32 → ((banBatch b0).1.msgs.map Msg.seq).Chain' (· < ·)) := by
  have hmsgs : (banBatch b0).1.msgs =
      [⟨NFNL_MSG_BATCH_BEGIN, NLM_F_REQUEST, (b0.seq + 1) % 2 ^ 32⟩,
       ⟨NFT_MSG_NEWSETELEM, NLM_F_CREATE ||| NLM_F_REQUEST, (b0.seq + 2) % 2 ^ 32⟩,
       ⟨NFT_MSG_DELSETELEM, NLM_F_CREATE ||| NLM_F_REQUEST, (b0.seq + 3) % 2 ^ 32⟩,
       ⟨NFT_MSG_NEWSETELEM, NLM_F_CREATE ||| NLM_F_REQUEST ||| NLM_F_ACK,
        (b0.seq + 4) % 2 ^ 32⟩,
       ⟨NFNL_MSG_BATCH_END, NLM_F_REQUEST, (b0.seq + 5) % 2 ^ 32⟩] := by
    simp [banBatch, NlmsgBatch.reset, NlmsgBatch.begin, NlmsgBatch.setElems,
      NlmsgBatch.finish, seqInc, Nat.mod_add_mod]
  refine ⟨hmsgs, ?_, ?_, ?_⟩
  · simp [banBatch, NlmsgBatch.reset, NlmsgBatch.begin, NlmsgBatch.setElems,
      NlmsgBatch.finish, seqInc, Nat.mod_add_mod]
  · rw [hmsgs]
    simp [List.chain'_cons, seqInc, Nat.mod_add_mod]
  · intro h
    rw [hmsgs]
    simp only [List.map_cons, List.map_nil, List.chain'_cons, List.chain'_singleton,
      and_true]
    omega

/-- Closed-form witness for `claim_C3_batch_framing`: from sequence 0 the
five sequence numbers are strictly increasing. -/
theorem claim_C3_witness :
    ((banBatch ⟨[], 0⟩).1.msgs.map Msg.seq).Chain' (· < ·) :=
  (claim_C3_batch_framing ⟨[], 0⟩).2.2.2 (by norm_num)

/-- Claim C5 as amended: the threshold `next_gc_len` initially equals the
configured initial capacity; before each check (`check_key` runs `maybe_gc`
first) the limiter compares its current map size against `next_gc_len`, and a
GC pass runs exactly when the size is greater than **or equal to** the
threshold (the code tests `len() >= next_gc_len`, not strict excess); after
removing fully replenished entries it sets
`next_gc_len ← max(initial_capacity, 2 · new_size)`. -/
theorem claim_C5_gc_threshold (period burst t cap : Nat)
    (l : KeyedLimiter (List Nat)) (k : List Nat) :
    (KeyedLimiter.new (List Nat) cap).nextGcLen = cap ∧
    (l.buckets.length < l.nextGcLen → l.maybeGc t = l) ∧
    (l.nextGcLen ≤ l.buckets.length →
      (l.maybeGc t).buckets = retainRecent t l.buckets ∧
      (l.maybeGc t).nextGcLen = max l.initialCapacity (2 * (retainRecent t l.buckets).length) ∧
      (l.maybeGc t).initialCapacity = l.initialCapacity) ∧
    l.checkKey period burst t k =
      storeCheck (emissionInterval period burst) (delayTolerance period burst) t
        (l.maybeGc t) k := by
    refine ⟨rfl, ?_, ?_, rfl⟩
    · intro h
      simp [KeyedLimiter.maybeGc, Nat.not_le.mpr h]
    · intro h
      simp [KeyedLimiter.maybeGc, h]

/-- Closed-form witness for `claim_C5_gc_threshold`: below the threshold,
`maybe_gc` does nothing. -/
theorem claim_C5_witness :
    KeyedLimiter.maybeGc 9 (⟨[([0], 3)], 7, 7⟩ : KeyedLimiter (List Nat)) =
      ⟨[([0], 3)], 7, 7⟩ :=
  (claim_C5_gc_threshold 1 1 9 7 ⟨[([0], 3)], 7, 7⟩ []).2.1 (by norm_num)

/-- Counterexample to claim C5 as stated: with the map size exactly equal to
`next_gc_len` (so the size does **not** exceed the threshold), the claim
predicts that no GC pass runs and the limiter is left unchanged; but
`maybe_gc` (which tests `len() >= next_gc_len`) does run and empties the
fully replenished map. -/
theorem claim_C5_counterexample :
    KeyedLimiter.maybeGc 5 (⟨[([0], 3), ([1], 4)], 2, 2⟩ : KeyedLimiter (List Nat)) ≠
      ⟨[([0], 3), ([1], 4)], 2, 2⟩ := by
  decide

/-- Claim C6: a GC pass at time `t` removes exactly the buckets whose stored
value is `≤ t` (the fully replenished ones), keeping every other entry — with
its value — unchanged and in order; consequently any key whose check would be
denied at a time `t' ≥ t` keeps its bucket (a denied check implies the stored
value exceeds `t'`, hence exceeds `t`). -/
theorem claim_C6_gc_preserves_denials (ei tol t t' v : Nat)
    (bs : List (List Nat × Nat)) (k : List Nat) :
    retainRecent t bs = bs.filter (fun kv => t < kv.2) ∧
    (∀ kv ∈ bs, (kv ∈ retainRecent t bs ↔ t < kv.2)) ∧
    (t ≤ t' → (gcraCheck ei tol v t').1 = false →
      ((k, v) ∈ bs → (k, v) ∈ retainRecent t bs)) := by
  have hfilter : retainRecent t bs = bs.filter (fun kv => t < kv.2) := by
    unfold retainRecent isOlderThan
    congr 1
    funext kv
    by_cases h : kv.2 ≤ t
    · simp [h, Nat.not_lt.mpr h]
    · simp [h, Nat.lt_of_not_le h]
  refine ⟨hfilter, ?_, ?_⟩
  · intro kv hkv
    rw [hfilter]
    simp [List.mem_filter, hkv]
  · intro htt hdeny hmem
    have hv : t' < v := by
      by_contra hle
      have : v ≤ t' := Nat.le_of_not_lt hle
      simp [gcraCheck, this] at hdeny
    rw [hfilter]
    exact List.mem_filter.mpr ⟨hmem, by simpa using lt_of_le_of_lt htt hv⟩

/-- Closed-form witness for `claim_C6_gc_preserves_denials`: a bucket denied
at time 2 survives a GC pass at time 1. -/
theorem claim_C6_witness :
    (([0], 50) : List Nat × Nat) ∈ retainRecent 1 [(([0] : List Nat), 50)] :=
  (claim_C6_gc_preserves_denials 1 10 1 2 50 [([0], 50)] [0]).2.2 (by norm_num)
    (by decide) (by decide)

theorem lookup_setBucket {K : Type} [DecidableEq K] (bs : List (K × Nat)) (k : K)
    (v : Nat) : List.lookup k (setBucket bs k v) = some v := by
  induction bs with
  | nil => simp [setBucket, List.lookup]
  | cons kv rest ih =>
    by_cases h : kv.1 = k
    · have hany : (kv :: rest).any (fun kv => kv.1 = k) = true := by
        simp [List.any_cons, h]
      simp [setBucket, hany, h, List.lookup]
    · cases hr : rest.any (fun kv => kv.1 = k) with
      | false =>
        have hany : (kv :: rest).any (fun kv => kv.1 = k) = false := by
          simp [List.any_cons, h, hr]
        have hbeq : (k == kv.1) = false := beq_eq_false_iff_ne.mpr (Ne.symm h)
        simp only [setBucket, hany, Bool.false_eq_true, if_false, List.cons_append]
        rw [List.lookup_cons]
        simp only [setBucket, hr, Bool.false_eq_true, if_false] at ih
        simp only [hbeq]
        exact ih
      | true =>
        have hany : (kv :: rest).any (fun kv => kv.1 = k) = true := by
          simp [List.any_cons, hr]
        have hbeq : (k == kv.1) = false := beq_eq_false_iff_ne.mpr (Ne.symm h)
        simp only [setBucket, hany, if_true, List.map_cons, if_neg h]
        rw [List.lookup_cons]
        simp only [setBucket, hr, if_true] at ih
        simp only [hbeq]
        exact ih

theorem bucketValue_setBucket {K : Type} [DecidableEq K] (bs : List (K × Nat))
    (k : K) (v cap gc : Nat) :
    bucketValue (⟨setBucket bs k v, cap, gc⟩ : KeyedLimiter K) k = v := by
  simp [bucketValue, lookup_setBucket]

/-- Claim C1: on a check of a key at virtual time `t`, with
`emission_interval = period / burst` and `delay_tolerance = period`, the
limiter follows the generic cell rate algorithm on the stored bucket value
`tat` (`0` when absent): if `tat ≤ t` it admits and stores
`max(tat, t) + emission_interval`; otherwise if
`tat − t ≤ delay_tolerance − emission_interval` it admits and advances the
same way; otherwise it denies and the stored bucket value is unchanged.
`check_key` runs this store-level check after `maybe_gc`
(`l.checkKey period burst t k = storeCheck … (l.maybeGc t) k`, last
conjunct), so the rule governs every check of every sequence. -/
theorem claim_C1_gcra_admission (period burst t : Nat)
    (l : KeyedLimiter (List Nat)) (k : List Nat) :
    (bucketValue l k ≤ t →
      (storeCheck (emissionInterval period burst) (delayTolerance period burst)
        t l k).1 = true ∧
      bucketValue (storeCheck (emissionInterval period burst)
        (delayTolerance period burst) t l k).2 k =
        max (bucketValue l k) t + emissionInterval period burst) ∧
    (¬ bucketValue l k ≤ t →
      bucketValue l k - t ≤ delayTolerance period burst - emissionInterval period burst →
      (storeCheck (emissionInterval period burst) (delayTolerance period burst)
        t l k).1 = true ∧
      bucketValue (storeCheck (emissionInterval period burst)
        (delayTolerance period burst) t l k).2 k =
        max (bucketValue l k) t + emissionInterval period burst) ∧
    (¬ bucketValue l k ≤ t →
      ¬ (bucketValue l k - t ≤ delayTolerance period burst - emissionInterval period burst) →
      (storeCheck (emissionInterval period burst) (delayTolerance period burst)
        t l k).1 = false ∧
      bucketValue (storeCheck (emissionInterval period burst)
        (delayTolerance period burst) t l k).2 k = bucketValue l k) ∧
    l.checkKey period burst t k =
      storeCheck (emissionInterval period burst) (delayTolerance period burst) t
        (l.maybeGc t) k := by
  refine ⟨?_, ?_, ?_, rfl⟩
  · intro hle
    constructor
    · simp [storeCheck, gcraCheck, hle]
    · simp only [storeCheck, gcraCheck, hle, if_true, if_pos hle]
      exact bucketValue_setBucket l.buckets k _ l.initialCapacity l.nextGcLen
  · intro hgt htol
    constructor
    · simp [storeCheck, gcraCheck, hgt, htol]
    · simp only [storeCheck, gcraCheck, if_neg hgt, if_pos htol]
      exact bucketValue_setBucket l.buckets k _ l.initialCapacity l.nextGcLen
  · intro hgt htol
    constructor
    · simp [storeCheck, gcraCheck, hgt, htol]
    · simp only [storeCheck, gcraCheck, if_neg hgt, if_neg htol]
      exact bucketValue_setBucket l.buckets k _ l.initialCapacity l.nextGcLen

/-- Closed-form witness for `claim_C1_gcra_admission`: a fresh key (stored
value 0) is admitted at time 3 and its bucket is set to
`3 + emission_interval`. -/
theorem claim_C1_witness :
    (storeCheck (emissionInterval 10 2) (delayTolerance 10 2) 3
      (⟨[], 100, 100⟩ : KeyedLimiter (List Nat)) [7]).1 = true ∧
    bucketValue (storeCheck (emissionInterval 10 2) (delayTolerance 10 2) 3
      (⟨[], 100, 100⟩ : KeyedLimiter (List Nat)) [7]).2 [7] =
      max (bucketValue (⟨[], 100, 100⟩ : KeyedLimiter (List Nat)) [7]) 3 +
        emissionInterval 10 2 :=
  (claim_C1_gcra_admission 10 2 3 ⟨[], 100, 100⟩ [7]).1 (by decide)

theorem banKernel_none (base batchLen : Nat) (s : BanState) (ip : IpAddr) :
    banKernel base batchLen none s ip = .ok (ban base s ip) := by
  by_cases h : ip ∈ s.suppression
  · simp [banKernel, ban, h]
  · simp [banKernel, ban, h]

theorem banKernel_ok_of_not_suppressed (base batchLen : Nat)
    (socket : Option KernelSocket) (s s' : BanState) (ip : IpAddr)
    (hns : ip ∉ s.suppression)
    (h : banKernel base batchLen socket s ip = .ok s') :
    s' = ⟨ip :: s.suppression,
          (ip, (s.recCount ip + 1) % 2 ^ 32) ::
            s.recidivism.filter fun kv => kv.1 ≠ ip,
          s.submissions ++
            [(ip, timeToBan base ((s.recCount ip + 1) % 2 ^ 32))]⟩ := by
  cases socket with
  | none =>
    simp [banKernel, hns] at h
    simpa using h.symm
  | some io =>
    cases hsub : submitBatch batchLen io with
    | error e => simp [banKernel, hns, hsub] at h
    | ok u =>
      cases u
      simp [banKernel, hns, hsub] at h
      simpa using h.symm

/-- Claim C7: with `bl_threshold = 0` no limiter is instantiated, and the
pipeline is in ban-on-sight mode: `handle_line` never consults a limiter;
every line is parsed as an IP, a parseable line leads to a ban attempt
(subject only to suppression, inside `banKernel`), and an unparseable line
only logs a parse error, the state untouched. -/
theorem claim_C7_ban_on_sight (parse : List Nat → Option IpAddr)
    (period burst base batchLen t cap : Nat) (socket : Option KernelSocket)
    (s : BanState) (line : List Nat) (ip : IpAddr) :
    ipRateLimiters 0 period cap = .ok none ∧
    (handleLine parse period burst base batchLen t socket none s
      line).2.checkedLimiter = false ∧
    (parse line = some ip →
      (handleLine parse period burst base batchLen t socket none s
        line).2.banAttempt = some ip) ∧
    (parse line = none →
      handleLine parse period burst base batchLen t socket none s line =
        (.next none s, ⟨false, none, true⟩)) := by
  refine ⟨rfl, ?_, ?_, ?_⟩
  · cases hp : parse line with
    | some ip' =>
      cases hb : banKernel base batchLen socket s ip' with
      | ok s' => simp [handleLine, hp, hb]
      | error e => simp [handleLine, hp, hb]
    | none => simp [handleLine, hp]
  · intro hp
    cases hb : banKernel base batchLen socket s ip with
    | ok s' => simp [handleLine, hp, hb]
    | error e => simp [handleLine, hp, hb]
  · intro hp
    simp [handleLine, hp]

/-- Closed-form witness for `claim_C7_ban_on_sight`: in ban-on-sight mode a
parseable line records a ban attempt for the parsed IP. -/
theorem claim_C7_witness :
    (handleLine (fun _ => some testAddrV4) 1 1 1 0 0 none none
      BanState.initial []).2.banAttempt = some testAddrV4 :=
  (claim_C7_ban_on_sight (fun _ => some testAddrV4) 1 1 1 0 0 0 none
    BanState.initial [] testAddrV4).2.2.1 rfl

/-- Claim C9: per-line errors never terminate the pipeline while per-ban
kernel errors do.  A line that fails to parse only logs and continues (the
ban state unchanged); a short socket write (`sent ≠ batch length`), a socket
read error, or a non-zero kernel ACK makes the kernel exchange — and hence
the ban — return an error, which `handle_line` turns into a fatal abort
(`expect("ban")`), both in ban-on-sight mode and under a denying limiter. -/
theorem claim_C9_error_propagation (parse : List Nat → Option IpAddr)
    (period burst base batchLen t tx : Nat) (socket : Option KernelSocket)
    (limiter : Option (KeyedLimiter (List Nat))) (s : BanState)
    (line : List Nat) (io : KernelSocket) (ip : IpAddr) (e : BanError) :
    (parse line = none →
      ∃ lim' tr, handleLine parse period burst base batchLen t socket limiter
        s line = (.next lim' s, tr)) ∧
    ((io.sent = some tx ∧ tx ≠ batchLen) ∨ io.recvOk = false ∨
        io.ackCodes.any (fun c => c ≠ 0) = true →
      ∃ e', submitBatch batchLen io = .error e') ∧
    (ip ∉ s.suppression → submitBatch batchLen io = .error e →
      banKernel base batchLen (some io) s ip = .error e) ∧
    (parse line = some ip → banKernel base batchLen socket s ip = .error e →
      (handleLine parse period burst base batchLen t socket none s
        line).1 = .fatal e) ∧
    (∀ l : KeyedLimiter (List Nat), (l.checkKey period burst t line).1 = false →
      parse line = some ip → banKernel base batchLen socket s ip = .error e →
      (handleLine parse period burst base batchLen t socket (some l) s
        line).1 = .fatal e) := by
  refine ⟨?_, ?_, ?_, ?_, ?_⟩
  · intro hp
    cases limiter with
    | none => exact ⟨none, ⟨false, none, true⟩, by simp [handleLine, hp]⟩
    | some l =>
      cases hck : l.checkKey period burst t line with
      | mk admitted l' =>
        cases admitted with
        | true => exact ⟨some l', ⟨true, none, false⟩, by simp [handleLine, hck]⟩
        | false => exact ⟨some l', ⟨true, none, true⟩, by simp [handleLine, hck, hp]⟩
  · intro h
    rcases h with ⟨hsent, htx⟩ | hrecv | hack
    · exact ⟨.shortWrite, by simp [submitBatch, hsent, htx]⟩
    · cases hs : io.sent with
      | none => exact ⟨.sendFailed, by simp [submitBatch, hs]⟩
      | some tx' =>
        by_cases htx : tx' = batchLen
        · exact ⟨.recvFailed, by simp [submitBatch, hs, htx, hrecv]⟩
        · exact ⟨.shortWrite, by simp [submitBatch, hs, htx]⟩
    · cases hs : io.sent with
      | none => exact ⟨.sendFailed, by simp [submitBatch, hs]⟩
      | some tx' =>
        by_cases htx : tx' = batchLen
        · cases hr : io.recvOk with
          | true =>
            refine ⟨.ackError, ?_⟩
            simp [submitBatch, hs, htx, hr]
            simpa using hack
          | false => exact ⟨.recvFailed, by simp [submitBatch, hs, htx, hr]⟩
        · exact ⟨.shortWrite, by simp [submitBatch, hs, htx]⟩
  · intro hns hsub
    simp [banKernel, hns, hsub]
  · intro hp hb
    simp [handleLine, hp, hb]
  · intro l hl hp hb
    cases hck : l.checkKey period burst t line with
    | mk admitted l' =>
      rw [hck] at hl
      cases admitted with
      | true => simp at hl
      | false => simp [handleLine, hck, hp, hb]

/-- Closed-form witness for `claim_C9_error_propagation`: a short write (5
bytes sent for a 3-byte batch) makes the ban fatal in ban-on-sight mode. -/
theorem claim_C9_witness :
    (handleLine (fun _ => some testAddrV4) 1 1 1 3 0 (some ⟨some 5, true, []⟩)
      none BanState.initial []).1 = .fatal .shortWrite :=
  (claim_C9_error_propagation (fun _ => some testAddrV4) 1 1 1 3 0 5
    (some ⟨some 5, true, []⟩) none BanState.initial [] ⟨some 5, true, []⟩
    testAddrV4 .shortWrite).2.2.2.1 rfl rfl

/-- Claim C10: a successful `Leroy::new` performs exactly two ban operations
before any input line is handled — for `192.0.2.1` and then `2001:db8::1` —
so both addresses are in the suppression cache and have recidivism count 1 at
startup.  Construction can also fail before any self-ban: a non-zero
threshold with a zero `bl_period` aborts with the quota-validation error
(src/lib.rs 134-135); whenever the quota validates, dry-run construction
(`socket = none`) succeeds with exactly these cache writes. -/
theorem claim_C10_startup_self_ban (blThreshold blPeriod capacity base batchLen : Nat)
    (socket : Option KernelSocket) (lim : Option (KeyedLimiter (List Nat)))
    (s : BanState) :
    (leroyNew blThreshold blPeriod capacity base batchLen socket = .ok (lim, s) →
      ipRateLimiters blThreshold blPeriod capacity = .ok lim ∧
      s.submissions =
        [(testAddrV4, timeToBan base 1), (testAddrV6, timeToBan base 1)] ∧
      testAddrV4 ∈ s.suppression ∧ testAddrV6 ∈ s.suppression ∧
      s.recCount testAddrV4 = 1 ∧ s.recCount testAddrV6 = 1) ∧
    (blThreshold ≠ 0 → blPeriod = 0 →
      leroyNew blThreshold blPeriod capacity base batchLen socket =
        .error .invalidQuota) ∧
    (∀ L, ipRateLimiters blThreshold blPeriod capacity = .ok L →
      leroyNew blThreshold blPeriod capacity base batchLen none =
        .ok (L, ⟨[testAddrV6, testAddrV4], [(testAddrV6, 1), (testAddrV4, 1)],
          [(testAddrV4, timeToBan base 1), (testAddrV6, timeToBan base 1)]⟩)) := by
  have hns6 : testAddrV6 ∉ (⟨[testAddrV4], [(testAddrV4, 1)],
      [(testAddrV4, timeToBan base 1)]⟩ : BanState).suppression :=
    (by decide : testAddrV6 ∉ [testAddrV4])
  have hv4 : ban base BanState.initial testAddrV4 =
      ⟨[testAddrV4], [(testAddrV4, 1)], [(testAddrV4, timeToBan base 1)]⟩ :=
    (ban_of_not_suppressed base BanState.initial testAddrV4 (by decide)).trans rfl
  have hv6 : ban base ⟨[testAddrV4], [(testAddrV4, 1)],
        [(testAddrV4, timeToBan base 1)]⟩ testAddrV6 =
      ⟨[testAddrV6, testAddrV4], [(testAddrV6, 1), (testAddrV4, 1)],
       [(testAddrV4, timeToBan base 1), (testAddrV6, timeToBan base 1)]⟩ :=
    (ban_of_not_suppressed base _ testAddrV6 hns6).trans rfl
  refine ⟨?_, ?_, ?_⟩
  · intro h
    cases hq : ipRateLimiters blThreshold blPeriod capacity with
    | error e => simp [leroyNew, hq] at h
    | ok L =>
      cases h1 : banKernel base batchLen socket BanState.initial testAddrV4 with
      | error e => simp [leroyNew, hq, h1] at h
      | ok s1 =>
        have hs1 : s1 = ⟨[testAddrV4], [(testAddrV4, 1)],
            [(testAddrV4, timeToBan base 1)]⟩ :=
          banKernel_ok_of_not_suppressed base batchLen socket BanState.initial s1
            testAddrV4 (by decide) h1
        subst hs1
        cases h2 : banKernel base batchLen socket (⟨[testAddrV4], [(testAddrV4, 1)],
            [(testAddrV4, timeToBan base 1)]⟩ : BanState) testAddrV6 with
        | error e => simp [leroyNew, hq, h1, h2] at h
        | ok s2 =>
          have hs2 : s2 = ⟨[testAddrV6, testAddrV4],
              [(testAddrV6, 1), (testAddrV4, 1)],
              [(testAddrV4, timeToBan base 1), (testAddrV6, timeToBan base 1)]⟩ :=
            banKernel_ok_of_not_suppressed base batchLen socket _ s2 testAddrV6
              hns6 h2
          subst hs2
          have hcomp : leroyNew blThreshold blPeriod capacity base batchLen socket =
              .ok (L,
                ⟨[testAddrV6, testAddrV4], [(testAddrV6, 1), (testAddrV4, 1)],
                 [(testAddrV4, timeToBan base 1), (testAddrV6, timeToBan base 1)]⟩) := by
            simp [leroyNew, hq, h1, h2]
          rw [hcomp] at h
          simp only [Except.ok.injEq, Prod.mk.injEq] at h
          obtain ⟨hlim, hs⟩ := h
          subst hs
          refine ⟨by rw [hlim], rfl, ?_, ?_, ?_, ?_⟩
          · exact (by decide : testAddrV4 ∈ [testAddrV6, testAddrV4])
          · exact (by decide : testAddrV6 ∈ [testAddrV6, testAddrV4])
          · exact (by decide :
              (List.lookup testAddrV4 [(testAddrV6, 1), (testAddrV4, 1)]).getD 0 = 1)
          · exact (by decide :
              (List.lookup testAddrV6 [(testAddrV6, 1), (testAddrV4, 1)]).getD 0 = 1)
  · intro hth hp
    simp [leroyNew, ipRateLimiters, hth, hp]
  · intro L hL
    have k4 := banKernel_none base batchLen BanState.initial testAddrV4
    rw [hv4] at k4
    have k6 := banKernel_none base batchLen (⟨[testAddrV4], [(testAddrV4, 1)],
      [(testAddrV4, timeToBan base 1)]⟩ : BanState) testAddrV6
    rw [hv6] at k6
    simp [leroyNew, hL, k4, k6]

/-- Closed-form witness for `claim_C10_startup_self_ban`: with threshold 0
(ban on sight, any period), capacity 1, base time 3 and no socket,
construction succeeds and both test addresses are cached. -/
theorem claim_C10_witness :
    testAddrV4 ∈ (⟨[testAddrV6, testAddrV4], [(testAddrV6, 1), (testAddrV4, 1)],
      [(testAddrV4, 3), (testAddrV6, 3)]⟩ : BanState).suppression :=
  ((claim_C10_startup_self_ban 0 0 1 3 0 none none
    ⟨[testAddrV6, testAddrV4], [(testAddrV6, 1), (testAddrV4, 1)],
     [(testAddrV4, 3), (testAddrV6, 3)]⟩).1 rfl).2.2.1

end Leroy
